import Mathlib

/-! gopro_hero: camera control and media retrieval.

A shallow embedding of `gopro_hero.cpp` (class `GoProHero`) and
`gopro_hero_node.cpp` (class `GoProHeroNode`).

Modelling conventions.

* A `std::string` is a `List Char`; a `std::vector<unsigned char>` is a
  `List Nat`, each element being a byte value.
* Everything the program does to the outside world is recorded, in program
  order, in a list of `Event`s: one entry per call of `curlRequestUrl`, per
  `sendCommand` / `sendSetting`, per controller method that is only declared
  in the header, per `ROS_INFO_STREAM` / `ROS_ERROR_STREAM` statement and per
  publication; `ROS_DEBUG_STREAM` statements are left out.
* The network is an oracle `Net` that, given the history of events so far,
  the url and the timeout, says how the transfer went.
-/

namespace gopro_hero

/-! ## Text scanning: `findImageFiles` -/

/-- One atom of a regular expression that is a plain sequence of
single-character atoms: the set of characters the atom accepts. -/
abbrev Atom := Char → Bool

/-- The expression `GOPR\d\d\d\d\.JPG` of `findImageFiles`, atom by atom; `\d`
accepts the ten decimal digits. -/
def imagePattern : List Atom :=
  [ fun c => c == 'G', fun c => c == 'O', fun c => c == 'P', fun c => c == 'R',
    Char.isDigit, Char.isDigit, Char.isDigit, Char.isDigit,
    fun c => c == '.', fun c => c == 'J', fun c => c == 'P', fun c => c == 'G' ]

/-- Whether the atom sequence matches a prefix of the text. -/
def matchHere : List Atom → List Char → Bool
  | [], _ => true
  | _ :: _, [] => false
  | a :: as, c :: cs => a c && matchHere as cs

/-- The search `boost::regex_search(start, end, m, e)` on the text from
`start` to `end`: the offset, from `start`, of the leftmost match, or `none`
when the expression matches nowhere. The expression has neither alternation
nor repetition, so a match at an offset is a match of the atoms one by one,
and the search does not throw. -/
def regexSearch (e : List Atom) : List Char → Option Nat
  | [] => if matchHere e [] then some 0 else none
  | c :: cs =>
    if matchHere e (c :: cs) then some 0
    else (regexSearch e cs).map (fun k => k + 1)

/-- The call `s.substr(pos, n)`. -/
def substr (s : List Char) (pos n : Nat) : List Char :=
  (s.drop pos).take n

/-- The `while` loop of `findImageFiles`. `start` is the offset of the
iterator `start` from `htmlMediaList.begin()`; a match `m` found at offset
`k` from `start` has `m[0].first` at `start + k` and `m[0].second` twelve
characters later. The loop runs at most `fuel` times. -/
def findImageFilesLoop (htmlMediaList : List Char) :
    Nat → Nat → List (List Char) → List (List Char)
  | 0, _, imageFiles => imageFiles
  | fuel + 1, start, imageFiles =>
    match regexSearch imagePattern (htmlMediaList.drop start) with
    | none => imageFiles
    | some k =>
      findImageFilesLoop htmlMediaList fuel (start + k + imagePattern.length)
        (imageFiles ++ [substr htmlMediaList (start + k) 12])

/-- The function `GoProHero::findImageFiles`: the names found are pushed to
the back of `imageFiles`. Every round of the loop moves `start` forward by at
least twelve characters, so `htmlMediaList.length + 1` rounds are never
used up. -/
def findImageFiles (htmlMediaList : List Char) (imageFiles : List (List Char)) :
    List (List Char) :=
  findImageFilesLoop htmlMediaList (htmlMediaList.length + 1) 0 imageFiles

/-- Whether the pattern occurs in the text at position `p`. -/
def occursAt (t : List Char) (p : Nat) : Bool :=
  matchHere imagePattern (t.drop p)

/-- The positions of the text at which the pattern occurs, ascending. -/
def occurrences (t : List Char) : List Nat :=
  (List.range t.length).filter (occursAt t)

/-- The positions from `start` on at which the pattern occurs, ascending. -/
def occurrencesFrom (t : List Char) (start : Nat) : List Nat :=
  (List.range' start (t.length - start)).filter (occursAt t)

/-! ## The outside world -/

/-- The controller methods of `GoProHero` that `gopro_hero_node.cpp` calls
and that are defined in the header only. -/
inductive Op
  | shutter | orientation | ledBlink | beepVolume | lcdDisplay | onScreenDisplay
  | lcdBrightness | lcdLock | lcdSleepTimeout | autoOffTime
  | videoStreamBitRate | videoFrameRate | videoResolution | videoFOV
  | videoLowLight | videoLoopDuration | videoPhotoInterval | videoTagMoment
  | multiBurstRate | multiTimeLapseInterval | multiNightLapseInterval
  | whiteBalance | color | isoLimit | isoMin | sharpness | ev | exposure
  | spotMeter | photoResolution
  | deleteAllMedia | videoStreamStart
  deriving DecidableEq

/-- The argument expression of a call of a controller method, as written at
the call site: none, an integer expression (possibly through a `static_cast`
to the parameter's enumeration), or a boolean literal. -/
inductive Arg
  | noArg
  | int (v : Int)
  | bool (b : Bool)
  deriving DecidableEq

/-- One operand of `<<` in a ROS console statement. -/
inductive Piece
  | str (s : List Char)
  | num (v : Int)
  deriving DecidableEq

/-- What the program does to the outside world. `ROS_DEBUG_STREAM` statements
are not recorded. -/
inductive Event
  /-- One call of `curlRequestUrl`. -/
  | request (url : List Char) (timeout : Int)
  /-- One call of `sendCommand`. -/
  | sendCommand (s : List Char)
  /-- One call of `sendSetting`. -/
  | sendSetting (s : List Char)
  /-- One call of a controller method defined in the header. -/
  | call (op : Op) (arg : Arg)
  /-- One `ROS_INFO_STREAM` statement. -/
  | rosInfo (msg : List Piece)
  /-- One `ROS_ERROR_STREAM` statement. -/
  | rosError (msg : List Piece)
  /-- One `shutterPub_.publish`. -/
  | publishShutter (data : List Char)
  /-- One `socket.send_to`. -/
  | sendTo (host : List Char) (port : Nat) (payload : List Nat)
  /-- One call `gpStream_->start()`. -/
  | streamStart
  /-- One call `gpStream_->pause(b)`. -/
  | streamPause (b : Bool)
  deriving DecidableEq

/-- The constant `CURLE_OK`. -/
def CURLE_OK : Nat := 0

/-- The constant `CURLE_FAILED_INIT`. -/
def CURLE_FAILED_INIT : Nat := 2

/-- The constant `CURLE_OPERATION_TIMEDOUT`. -/
def CURLE_OPERATION_TIMEDOUT : Nat := 28

/-- How one transfer went: whether `curl_easy_init` gave a handle, the code
`curl_easy_perform` returned, and the bytes that reached the write callback
before the transfer ended. -/
structure Response where
  handle : Bool
  res : Nat
  body : List Char
  deriving DecidableEq

/-- The network: the history of events so far, the url and the timeout decide
how the transfer goes. -/
abbrev Net := List Event → List Char → Int → Response

/-- Whether a transfer completed successfully. -/
def Response.succeeded (r : Response) : Bool :=
  r.handle && r.res == CURLE_OK

/-- The conversion of a `char` of a `std::string` to `unsigned char`. -/
def charToByte (c : Char) : Nat := c.toNat % 256

/-! ## `GoProHero` -/

/-- The enumeration `GoProHero::Mode`. -/
inductive GoProHero.Mode
  | VIDEO | PHOTO | MULTISHOT
  deriving DecidableEq

/-- The two values `JSON` and `HTML` of `imageListFrom_`. -/
inductive GoProHero.ImageListFrom
  | JSON | HTML
  deriving DecidableEq

/-- The data members of `GoProHero` that the source files use. -/
structure GoProHero where
  saveOnDevice_ : Bool
  mode_ : GoProHero.Mode
  imageListFrom_ : GoProHero.ImageListFrom
  deriving DecidableEq

/-- The call `boost::iequals(a, b)`: equal length and equal characters after
`toupper`. -/
def iequals : List Char → List Char → Bool
  | [], [] => true
  | x :: xs, y :: ys => x.toUpper == y.toUpper && iequals xs ys
  | _, _ => false

/-- The constructor `GoProHero::GoProHero`. `env` is the result of
`std::getenv("IMAGE_LIST_FROM")`, `none` for a null pointer. -/
def GoProHero.construct (env : Option (List Char)) : gopro_hero.GoProHero × List Event :=
  match env with
  | some from_ =>
    if iequals "JSON".toList from_ then
      ({ saveOnDevice_ := true, mode_ := .PHOTO, imageListFrom_ := .JSON }, [])
    else if iequals "HTML".toList from_ then
      ({ saveOnDevice_ := true, mode_ := .PHOTO, imageListFrom_ := .HTML }, [])
    else
      ({ saveOnDevice_ := true, mode_ := .PHOTO, imageListFrom_ := .HTML },
        [ Event.rosInfo [.str "Unknown format:".toList, .str from_],
          Event.rosInfo [.str "Using default format: HTML".toList] ])
  | none =>
    ({ saveOnDevice_ := true, mode_ := .PHOTO, imageListFrom_ := .HTML }, [])

/-- The function `GoProHero::curlRequestUrl`. Returns the function's result,
the contents of `readBuffer` afterwards and the extended history. When
`curl_easy_init` gives no handle nothing is transferred and `res` keeps its
initial value `CURLE_FAILED_INIT`; otherwise the write callback appends the
bytes received to `readBuffer` and `res` is the code of `curl_easy_perform`.
The `return` statement does not look at `res`. -/
def GoProHero.curlRequestUrl (net : Net) (log : List Event) (url : List Char)
    (readBuffer : List Char) (timeout : Int) : Bool × List Char × List Event :=
  let r := net log url timeout
  let log1 := log ++ [Event.request url timeout]
  if r.handle then
    let _res := r.res
    (true, readBuffer ++ r.body, log1)
  else
    let _res := CURLE_FAILED_INIT
    (true, readBuffer, log1)

/-- The function `GoProHero::curlGetText`. -/
def GoProHero.curlGetText (net : Net) (log : List Event) (url : List Char)
    (text : List Char) (timeout : Int) : Bool × List Char × List Event :=
  GoProHero.curlRequestUrl net log url text timeout

/-- The function `GoProHero::curlGetBytes`. Returns the function's result, the
contents of `image` afterwards and the extended history. -/
def GoProHero.curlGetBytes (net : Net) (log : List Event) (url : List Char)
    (image : List Nat) (timeout : Int) : Bool × List Nat × List Event :=
  match GoProHero.curlRequestUrl net log url [] timeout with
  | (true, s, log1) => (true, image ++ s.map charToByte, log1)
  | (false, _, log1) => (false, image, log1)

/-- The function `GoProHero::send`. -/
def GoProHero.send (net : Net) (log : List Event) (s : List Char) : Bool × List Event :=
  match GoProHero.curlGetText net log s [] 2 with
  | (_, _, log1) => (true, log1)

/-- The function `GoProHero::setMode`: the object afterwards and the extended
history. -/
def GoProHero.setMode (self : GoProHero) (log : List Event) (m : GoProHero.Mode) :
    GoProHero × List Event :=
  let self1 := { self with mode_ := m }
  match m with
  | .VIDEO =>
    (self1, log ++ [Event.sendCommand "mode?p=0".toList] ++ [Event.sendSetting "10/1".toList])
  | .PHOTO =>
    (self1, log ++ [Event.sendCommand "mode?p=1".toList] ++ [Event.sendSetting "21/1".toList])
  | .MULTISHOT =>
    (self1, log ++ [Event.sendCommand "mode?p=2".toList] ++ [Event.sendSetting "34/1".toList])

/-- A `std::array<unsigned char, n>`. -/
abbrev CArray (n : Nat) := { l : List Nat // l.length = n }

/-- The call `memcpy(&dst[off], &src, k)`: `dst[off + j] = src[j]` for
`j = 0, ..., k - 1`. -/
def memcpy (dst : List Nat) (off : Nat) (src : List Nat) : Nat → List Nat
  | 0 => dst
  | k + 1 => (memcpy dst off src k).set (off + k) (src.getD k 0)

/-- The two loops of `sendMagicPacket` that fill `buf`; `buf` starts with
whatever the uninitialised array holds. An assignment `buf[i] = v` is
`List.set`. -/
def GoProHero.magicPacket (mac : CArray 6) (buf : CArray 102) : List Nat :=
  let buf1 := (List.range' 0 6).foldl (fun b i => b.set i 0xFF) buf.val
  (List.range' 1 16).foldl (fun b i => memcpy b (i * 6) mac.val 6) buf1

/-- The function `GoProHero::sendMagicPacket`. -/
def GoProHero.sendMagicPacket (log : List Event) (mac : CArray 6) (buf : CArray 102) :
    List Event :=
  log ++ [Event.sendTo "10.5.5.9".toList 9 (GoProHero.magicPacket mac buf)]

/-- The body read by one call of `curlRequestUrl` into an empty buffer. -/
def Response.received (r : Response) : List Char :=
  if r.handle then r.body else []

/-- The directory under which the camera serves its media. -/
def mediaDir : List Char := "http://10.5.5.9/videos/DCIM/100GOPRO/".toList

/-- The download loop of the HTML branch of `currentImages`: for every name in
turn, one `curlGetBytes` into a fresh `image`, which is then pushed to the
back of `images` whatever `curlGetBytes` returned. -/
def GoProHero.fetchLoop (net : Net) (timeout : Int) :
    List (List Char) → List (List Nat) → List Event → List (List Nat) × List Event
  | [], images, log => (images, log)
  | name :: rest, images, log =>
    let path := mediaDir ++ name
    match GoProHero.curlGetBytes net log path [] timeout with
    | (_, image, log1) => GoProHero.fetchLoop net timeout rest (images ++ [image]) log1

/-- What the JsonCpp calls of the JSON branch do with a media list.
`parseFails`: `reader.parse` returns `false`. `raises`: `reader.parse` or the
access `root["media"][0]["fs"]` raises an exception. `fs entries`: the access
gives a value `media` with `media.size()` equal to the length of `entries`,
and `media[i]["n"].asString()` gives the string of entry `i`, or raises when
the entry is `none`. -/
inductive JsonMedia
  | parseFails
  | raises
  | fs (entries : List (Option (List Char)))
  deriving DecidableEq

/-- How a call of `currentImages` ends: the contents of `images` afterwards,
the extended history, and whether an exception left the function instead of
a normal return. -/
structure Retrieved where
  images : List (List Nat)
  log : List Event
  raised : Bool
  deriving DecidableEq

/-- The download loop of the JSON branch of `currentImages`: as the loop of
the HTML branch, but the name of entry `i` comes from
`media[i]["n"].asString()`, which may raise; nothing catches the exception,
so it ends the loop and the function, after the items of the entries before
it have been pushed. -/
def GoProHero.fetchLoopJson (net : Net) (timeout : Int) :
    List (Option (List Char)) → List (List Nat) → List Event → Retrieved
  | [], images, log => { images := images, log := log, raised := false }
  | none :: _, images, log => { images := images, log := log, raised := true }
  | some name :: rest, images, log =>
    let path := mediaDir ++ name
    match GoProHero.curlGetBytes net log path [] timeout with
    | (_, image, log1) => GoProHero.fetchLoopJson net timeout rest (images ++ [image]) log1

/-- The type of `curlGetText` once the network is fixed: history, url, the
buffer `text` and the timeout give the result, the buffer afterwards and the
extended history. -/
abbrev GetText := List Event → List Char → List Char → Int → Bool × List Char × List Event

/-- The body of `GoProHero::currentImages`, with the function it calls for the
media index as the parameter `getText`; the source calls `curlGetText`.
`jsonCpp mediaList` stands for the JsonCpp calls on the text `mediaList`. The
function has no `try`, so an exception of a JsonCpp call leaves it. -/
def GoProHero.currentImagesVia (getText : GetText) (self : GoProHero) (net : Net)
    (jsonCpp : List Char → JsonMedia) (log : List Event)
    (images : List (List Nat)) (timeout : Int) : Retrieved :=
  match self.imageListFrom_ with
  | .JSON =>
    match getText log "http://10.5.5.9/gp/gpMediaList".toList [] 2 with
    | (false, _, log1) =>
      { images := images,
        log := log1 ++ [Event.rosError [.str "FAILED to get image list!!".toList]],
        raised := false }
    | (true, mediaList, log1) =>
      if mediaList.isEmpty then
        { images := images,
          log := log1 ++
            [Event.rosError [.str "empty media list or media list parsing error".toList]],
          raised := false }
      else
        match jsonCpp mediaList with
        | .parseFails =>
          { images := images,
            log := log1 ++
              [Event.rosError [.str "empty media list or media list parsing error".toList]],
            raised := false }
        | .raises => { images := images, log := log1, raised := true }
        | .fs media => GoProHero.fetchLoopJson net timeout media images log1
  | .HTML =>
    match getText log mediaDir [] 2 with
    | (false, _, log1) =>
      { images := images,
        log := log1 ++ [Event.rosError [.str "FAILED to get image list!!".toList]],
        raised := false }
    | (true, htmlMediaList, log1) =>
      let imageFiles := findImageFiles htmlMediaList []
      if !imageFiles.isEmpty then
        match GoProHero.fetchLoop net timeout imageFiles images log1 with
        | (images1, log2) => { images := images1, log := log2, raised := false }
      else
        { images := images,
          log := log1 ++
            [Event.rosError
              [.str "empty media list or media list page parsing error".toList]],
          raised := false }

/-- The function `GoProHero::currentImages`. -/
def GoProHero.currentImages (self : GoProHero) (net : Net)
    (jsonCpp : List Char → JsonMedia) (log : List Event)
    (images : List (List Nat)) (timeout : Int) : Retrieved :=
  GoProHero.currentImagesVia (GoProHero.curlGetText net) self net jsonCpp log images timeout

/-! ## `GoProHeroNode` -/

/-- The data members of `GoProHeroNode` that the callbacks read or write. -/
structure GoProHeroNode where
  gp_ : GoProHero
  isStreaming_ : Bool
  deriving DecidableEq

/-- One element of `msg->settings`: the setting's `name` and its integer
value `id`. -/
structure Setting where
  name : List Char
  id : Int
  deriving DecidableEq

/-- The chain of comparisons of `cameraSettingsCB`, tried in the order of the
source: the one thing the loop body does for the setting `name` with value
`val`, a call of a controller method or the error report. -/
def GoProHeroNode.settingEffect (name : List Char) (val : Int) : Event :=
  if "shutter".toList = name then Event.call .shutter (.int val)
  else if "orientation".toList = name then Event.call .orientation (.int val)
  else if "ledBlink".toList = name then Event.call .ledBlink (.int val)
  else if "beepVolume".toList = name then Event.call .beepVolume (.int val)
  else if "lcdDisplay".toList = name then Event.call .lcdDisplay (.int val)
  else if "onScreenDisplay".toList = name then Event.call .onScreenDisplay (.int val)
  else if "lcdBrightness".toList = name then Event.call .lcdBrightness (.int val)
  else if "lcdLock".toList = name then Event.call .lcdLock (.int val)
  else if "lcdSleepTimeout".toList = name then Event.call .lcdSleepTimeout (.int val)
  else if "autoOffTime".toList = name then Event.call .autoOffTime (.int val)
  else if "videoStreamBitRate".toList = name then
    Event.call .videoStreamBitRate (.int val)
  else if "videoFrameRate".toList = name then Event.call .videoFrameRate (.int val)
  else if "videoResolution".toList = name then Event.call .videoResolution (.int val)
  else if "videoFrameRate".toList = name then Event.call .videoFrameRate (.int val)
  else if "videoFOV".toList = name then Event.call .videoFOV (.int val)
  else if "videoLowLight".toList = name then Event.call .videoLowLight (.int val)
  else if "videoLoopDuration".toList = name then
    Event.call .videoLoopDuration (.int val)
  else if "videoPhotoInterval".toList = name then
    Event.call .videoPhotoInterval (.int val)
  else if "videoTagMoment".toList = name then Event.call .videoTagMoment .noArg
  else if "multiBurstRate".toList = name then Event.call .multiBurstRate (.int val)
  else if "multiTimeLapseInterval".toList = name then
    Event.call .multiTimeLapseInterval (.int val)
  else if "multiNightLapseInterval".toList = name then
    Event.call .multiNightLapseInterval (.int val)
  else if "whiteBalance".toList = name then Event.call .whiteBalance (.int val)
  else if "color".toList = name then Event.call .color (.int val)
  else if "isoLimit".toList = name then Event.call .isoLimit (.int val)
  else if "isoMin".toList = name then Event.call .isoMin (.int val)
  else if "sharpness".toList = name then Event.call .sharpness (.int val)
  else if "ev".toList = name then Event.call .ev (.int val)
  else if "exposure".toList = name then Event.call .exposure (.int val)
  else if "spotMeter".toList = name then Event.call .spotMeter (.int val)
  else if "photoResolution".toList = name then Event.call .photoResolution (.int val)
  else
    Event.rosError
      [.str "FAILED setting - ".toList, .str "name:".toList, .str name,
       .str ", value:".toList, .num val]

/-- The body of the `for` loop of `cameraSettingsCB` for one element. -/
def GoProHeroNode.applySetting (log : List Event) (s : Setting) : List Event :=
  let val := s.id
  let name := s.name
  log ++ [GoProHeroNode.settingEffect name val]

/-- The function `GoProHeroNode::cameraSettingsCB`: the loop over
`msg->settings`. -/
def GoProHeroNode.cameraSettingsCB (log : List Event) : List Setting → List Event
  | [] => log
  | s :: rest => GoProHeroNode.cameraSettingsCB (GoProHeroNode.applySetting log s) rest

/-- The event of one download request for `name`. -/
def downloadRequest (timeout : Int) (name : List Char) : Event :=
  Event.request (mediaDir ++ name) timeout

/-- The names the scan finds in the text that the request for the directory
listing, issued after the history `log`, reads. -/
def listedNames (net : Net) (log : List Event) : List (List Char) :=
  findImageFiles (net log mediaDir 2).received []

/-- The bytes read by the download request for the `i`-th of `names`, issued
after the history `log` and the requests for the names before it. -/
def downloadedItem (net : Net) (timeout : Int) (log : List Event)
    (names : List (List Char)) (i : Nat) : List Nat :=
  ((net (log ++ (names.take i).map (downloadRequest timeout))
      (mediaDir ++ names.getD i []) timeout).received).map charToByte

/-- Whether an event is a request. -/
def Event.isRequest : Event → Bool
  | .request _ _ => true
  | _ => false

/-- A network for the examples: the directory listing names two files; the
download of the first times out after two bytes, and for any other url no
handle can be had. -/
def sampleNet : Net := fun _ url _ =>
  if url = mediaDir then
    ⟨true, CURLE_OK, "<a>GOPR0001.JPG</a><a>GOPR0002.JPG</a>".toList⟩
  else if url = mediaDir ++ "GOPR0001.JPG".toList then
    ⟨true, CURLE_OPERATION_TIMEDOUT, "ab".toList⟩
  else ⟨false, CURLE_OK, []⟩

/-- The table of setting names: every name `cameraSettingsCB` compares with,
and the controller method called for it. -/
def settingTable : List (List Char × Op) :=
  [ ("shutter".toList, .shutter), ("orientation".toList, .orientation),
    ("ledBlink".toList, .ledBlink), ("beepVolume".toList, .beepVolume),
    ("lcdDisplay".toList, .lcdDisplay), ("onScreenDisplay".toList, .onScreenDisplay),
    ("lcdBrightness".toList, .lcdBrightness), ("lcdLock".toList, .lcdLock),
    ("lcdSleepTimeout".toList, .lcdSleepTimeout), ("autoOffTime".toList, .autoOffTime),
    ("videoStreamBitRate".toList, .videoStreamBitRate),
    ("videoFrameRate".toList, .videoFrameRate),
    ("videoResolution".toList, .videoResolution), ("videoFOV".toList, .videoFOV),
    ("videoLowLight".toList, .videoLowLight),
    ("videoLoopDuration".toList, .videoLoopDuration),
    ("videoPhotoInterval".toList, .videoPhotoInterval),
    ("videoTagMoment".toList, .videoTagMoment),
    ("multiBurstRate".toList, .multiBurstRate),
    ("multiTimeLapseInterval".toList, .multiTimeLapseInterval),
    ("multiNightLapseInterval".toList, .multiNightLapseInterval),
    ("whiteBalance".toList, .whiteBalance), ("color".toList, .color),
    ("isoLimit".toList, .isoLimit), ("isoMin".toList, .isoMin),
    ("sharpness".toList, .sharpness), ("ev".toList, .ev), ("exposure".toList, .exposure),
    ("spotMeter".toList, .spotMeter), ("photoResolution".toList, .photoResolution) ]

/-- The report of a setting whose name is not in the table. -/
def unrecognizedReport (s : Setting) : Event :=
  Event.rosError
    [.str "FAILED setting - ".toList, .str "name:".toList, .str s.name,
     .str ", value:".toList, .num s.id]

/-- What the table prescribes for one assignment: for a name of the table
one call of the method listed for it, with the value as argument (the method
`videoTagMoment` takes no argument); for any other name the report. -/
def tableEffect (s : Setting) : Event :=
  match settingTable.lookup s.name with
  | some op => Event.call op (if op = .videoTagMoment then .noArg else .int s.id)
  | none => unrecognizedReport s

/-- A spelling of `JSON` in upper-case or lower-case letters. -/
def spellsJSON (s : List Char) : Prop :=
  ∃ c0 c1 c2 c3, s = [c0, c1, c2, c3] ∧ (c0 = 'J' ∨ c0 = 'j') ∧ (c1 = 'S' ∨ c1 = 's') ∧
    (c2 = 'O' ∨ c2 = 'o') ∧ (c3 = 'N' ∨ c3 = 'n')

/-- A spelling of `HTML` in upper-case or lower-case letters. -/
def spellsHTML (s : List Char) : Prop :=
  ∃ c0 c1 c2 c3, s = [c0, c1, c2, c3] ∧ (c0 = 'H' ∨ c0 = 'h') ∧ (c1 = 'T' ∨ c1 = 't') ∧
    (c2 = 'M' ∨ c2 = 'm') ∧ (c3 = 'L' ∨ c3 = 'l')

/-- A network for the examples: every transfer gets a handle and times out
after the listing's first name has arrived, respectively after two bytes of
any other url. -/
def timedOutNet : Net := fun _ url _ =>
  if url = mediaDir ∨ url = "http://10.5.5.9/gp/gpMediaList".toList then
    ⟨true, CURLE_OPERATION_TIMEDOUT, "<a>GOPR0001.JPG".toList⟩
  else ⟨true, CURLE_OPERATION_TIMEDOUT, "ab".toList⟩

/-- A network for the examples: no handle can be had. -/
def noHandleNet : Net := fun _ _ _ => ⟨false, CURLE_OK, []⟩

/-- The constructor `GoProHeroNode::GoProHeroNode`: `isStreaming_` starts as
`false`; the member `gp_` is built by `GoProHero::GoProHero`, whose notices
are the events returned. -/
def GoProHeroNode.construct (env : Option (List Char)) : GoProHeroNode × List Event :=
  ({ gp_ := (GoProHero.construct env).1, isStreaming_ := false },
    (GoProHero.construct env).2)

/-- The function `GoProHeroNode::toggleVideoStreamCB`; `data` is `msg->data`.
What `start()` and `pause()` do inside the stream class is not part of these
sources: each call is one event. -/
def GoProHeroNode.toggleVideoStreamCB (self : GoProHeroNode) (log : List Event)
    (data : Bool) : GoProHeroNode × List Event :=
  match (if data then
      match self.gp_.setMode log .VIDEO with
      | (gp1, log1) =>
        if !self.isStreaming_ then
          ({ gp_ := gp1, isStreaming_ := true }, log1 ++ [Event.streamStart])
        else
          ({ self with gp_ := gp1 }, log1)
    else (self, log)) with
  | (self1, log2) => (self1, log2 ++ [Event.streamPause data])

/-- The messages of `toggle_video_stream` handled one after the other, each
by one run of `toggleVideoStreamCB`. -/
def GoProHeroNode.handleToggles (self : GoProHeroNode) (log : List Event) :
    List Bool → GoProHeroNode × List Event
  | [] => (self, log)
  | data :: rest =>
    match self.toggleVideoStreamCB log data with
    | (self1, log1) => GoProHeroNode.handleToggles self1 log1 rest

/-- The argument of a call of `pause`, for an event that is one. -/
def Event.pauseArg : Event → Option Bool
  | .streamPause b => some b
  | _ => none

/-- The two commands `setMode(VIDEO)` dispatches. -/
def videoModeCommands : List Event :=
  [Event.sendCommand "mode?p=0".toList, Event.sendSetting "10/1".toList]

/-- What handling one message does once the stream has been started: for
`true` the mode change and `pause(true)`, without `start()`; for `false`
only `pause(false)`. -/
def laterToggle (data : Bool) : List Event :=
  if data then videoModeCommands ++ [Event.streamPause true]
  else [Event.streamPause false]

/-- The events of handling a sequence of messages, as a function of whether
the stream has been started before the first of them. -/
def toggleTrace : Bool → List Bool → List Event
  | _, [] => []
  | started, false :: rest => Event.streamPause false :: toggleTrace started rest
  | started, true :: rest =>
    videoModeCommands ++ (if started then [] else [Event.streamStart])
      ++ [Event.streamPause true] ++ toggleTrace true rest

/-- Whether an event is a call into the stream object `gpStream_`. -/
def Event.isStreamCall : Event → Bool
  | .streamStart => true
  | .streamPause _ => true
  | _ => false

/-! ## Vocabulary of the statements on failures -/

theorem matchHere_length (e : List Atom) (s : List Char) (h : matchHere e s = true) :
    e.length ≤ s.length := by
  induction e generalizing s with
  | nil => simp
  | cons a e ih =>
    cases s with
    | nil => simp [matchHere] at h
    | cons c cs =>
      simp only [matchHere, Bool.and_eq_true] at h
      have := ih cs h.2
      simp only [List.length_cons]
      omega

theorem occursAt_lt (t : List Char) (p : Nat) (h : occursAt t p = true) :
    p + 12 ≤ t.length := by
  have := matchHere_length _ _ h
  simp [imagePattern] at this
  omega

theorem regexSearch_none (e : List Atom) (s : List Char) (h : regexSearch e s = none) :
    ∀ j, matchHere e (s.drop j) = false := by
  induction s with
  | nil =>
    intro j
    simp only [regexSearch] at h
    simp only [List.drop_nil]
    by_contra hc
    simp only [Bool.not_eq_false] at hc
    simp [hc] at h
  | cons c cs ih =>
    intro j
    simp only [regexSearch] at h
    split at h
    · simp at h
    · rename_i hm
      cases j with
      | zero => simpa using hm
      | succ j =>
        simp only [Option.map_eq_none'] at h
        simpa using ih h j

theorem regexSearch_some (e : List Atom) (s : List Char) (k : Nat)
    (h : regexSearch e s = some k) :
    matchHere e (s.drop k) = true ∧ ∀ j, j < k → matchHere e (s.drop j) = false := by
  induction s generalizing k with
  | nil =>
    simp only [regexSearch] at h
    split at h
    · rename_i hm
      simp only [Option.some.injEq] at h
      subst h
      exact ⟨by simpa using hm, fun j hj => absurd hj (Nat.not_lt_zero j)⟩
    · simp at h
  | cons c cs ih =>
    simp only [regexSearch] at h
    split at h
    · rename_i hm
      simp only [Option.some.injEq] at h
      subst h
      exact ⟨by simpa using hm, fun j hj => absurd hj (Nat.not_lt_zero j)⟩
    · rename_i hm
      simp only [Option.map_eq_some'] at h
      obtain ⟨k', hk', rfl⟩ := h
      obtain ⟨h1, h2⟩ := ih k' hk'
      refine ⟨by simpa using h1, ?_⟩
      intro j hj
      cases j with
      | zero => simpa using hm
      | succ j => simpa using h2 j (by omega)

theorem isDigit_not_G (c : Char) (h : c.isDigit = true) : (c == 'G') = false := by
  simp only [beq_eq_false_iff_ne, ne_eq]
  rintro rfl
  exact absurd h (by decide)

theorem match_no_inner (s : List Char) (h : matchHere imagePattern s = true)
    (k : Nat) (h1 : 1 ≤ k) (h2 : k ≤ 10) :
    matchHere imagePattern (s.drop k) = false := by
  match s, h with
  | c0 :: c1 :: c2 :: c3 :: c4 :: c5 :: c6 :: c7 :: c8 :: c9 :: c10 :: c11 :: rest, h =>
    simp only [imagePattern, matchHere, Bool.and_eq_true, beq_iff_eq, Bool.and_true] at h
    obtain ⟨rfl, rfl, rfl, rfl, h4, h5, h6, h7, rfl, rfl, rfl, rfl⟩ := h
    interval_cases k <;>
      simp [imagePattern, matchHere, isDigit_not_G, h4, h5, h6, h7]
  | [], h => simp [imagePattern, matchHere] at h
  | [_], h => simp [imagePattern, matchHere] at h
  | [_, _], h => simp [imagePattern, matchHere] at h
  | [_, _, _], h => simp [imagePattern, matchHere] at h
  | [_, _, _, _], h => simp [imagePattern, matchHere] at h
  | [_, _, _, _, _], h => simp [imagePattern, matchHere] at h
  | [_, _, _, _, _, _], h => simp [imagePattern, matchHere] at h
  | [_, _, _, _, _, _, _], h => simp [imagePattern, matchHere] at h
  | [_, _, _, _, _, _, _, _], h => simp [imagePattern, matchHere] at h
  | [_, _, _, _, _, _, _, _, _], h => simp [imagePattern, matchHere] at h
  | [_, _, _, _, _, _, _, _, _, _], h => simp [imagePattern, matchHere] at h
  | [_, _, _, _, _, _, _, _, _, _, _], h => simp [imagePattern, matchHere] at h

theorem range'_split (s m n : Nat) :
    List.range' s (m + n) = List.range' s m ++ List.range' (s + m) n := by
  rw [List.range'_append_1, Nat.add_comm]

theorem occurrencesFrom_zero (t : List Char) : occurrencesFrom t 0 = occurrences t := by
  simp [occurrencesFrom, occurrences, List.range_eq_range']

theorem occurrencesFrom_none (t : List Char) (start : Nat)
    (h : ∀ j, start ≤ j → occursAt t j = false) : occurrencesFrom t start = [] := by
  simp only [occurrencesFrom, List.filter_eq_nil_iff, List.mem_range'_1]
  intro j hj
  simp [h j hj.1]

theorem occurrencesFrom_match (t : List Char) (start q : Nat) (hq : start ≤ q)
    (hm : occursAt t q = true)
    (hbefore : ∀ j, start ≤ j → j < q → occursAt t j = false)
    (hafter : ∀ j, q < j → j < q + 12 → occursAt t j = false) :
    occurrencesFrom t start = q :: occurrencesFrom t (q + 12) := by
  have hlen := occursAt_lt t q hm
  have e1 : List.range' start (t.length - start)
      = List.range' start (q - start) ++ (q :: (List.range' (q + 1) 11
          ++ List.range' (q + 12) (t.length - (q + 12)))) := by
    have a1 : t.length - start = (q - start) + (1 + (11 + (t.length - (q + 12)))) := by omega
    have a2 : start + (q - start) = q := by omega
    have a3 : q + 1 + 11 = q + 12 := by omega
    rw [a1, range'_split, a2, range'_split, range'_split, a3]
    rfl
  have f1 : (List.range' start (q - start)).filter (occursAt t) = [] := by
    simp only [List.filter_eq_nil_iff, List.mem_range'_1]
    intro j hj
    simp [hbefore j hj.1 (by omega)]
  have f2 : (List.range' (q + 1) 11).filter (occursAt t) = [] := by
    simp only [List.filter_eq_nil_iff, List.mem_range'_1]
    intro j hj
    simp [hafter j (by omega) (by omega)]
  simp only [occurrencesFrom]
  rw [e1, List.filter_append, f1, List.filter_cons, hm, List.filter_append, f2]
  simp

theorem findImageFilesLoop_eq (t : List Char)
    (hno : ∀ p, p < t.length → occursAt t p = true → occursAt t (p + 11) = false)
    (fuel start : Nat) (acc : List (List Char)) (hfuel : t.length < start + fuel) :
    findImageFilesLoop t fuel start acc
      = acc ++ (occurrencesFrom t start).map (fun p => substr t p 12) := by
  induction fuel generalizing start acc with
  | zero =>
    have : occurrencesFrom t start = [] := by
      have : t.length - start = 0 := by omega
      simp [occurrencesFrom, this]
    simp [findImageFilesLoop, this]
  | succ fuel ih =>
    simp only [findImageFilesLoop]
    cases hs : regexSearch imagePattern (t.drop start) with
    | none =>
      have hn := regexSearch_none _ _ hs
      have : occurrencesFrom t start = [] := by
        apply occurrencesFrom_none
        intro j hj
        have := hn (j - start)
        rw [List.drop_drop] at this
        have e : start + (j - start) = j := by omega
        rw [e] at this
        exact this
      simp [this]
    | some k =>
      obtain ⟨hm, hb⟩ := regexSearch_some _ _ _ hs
      rw [List.drop_drop] at hm
      have hm' : occursAt t (start + k) = true := hm
      have hlen := occursAt_lt t _ hm'
      have hocc := occurrencesFrom_match t start (start + k) (by omega) hm'
        (by
          intro j hj1 hj2
          have := hb (j - start) (by omega)
          rw [List.drop_drop] at this
          have e : start + (j - start) = j := by omega
          rw [e] at this
          exact this)
        (by
          intro j hj1 hj2
          by_cases h11 : j = start + k + 11
          · subst h11
            exact hno _ (by omega) hm'
          · have := match_no_inner _ hm (j - (start + k)) (by omega) (by omega)
            rw [List.drop_drop] at this
            have e : start + k + (j - (start + k)) = j := by omega
            rw [e] at this
            exact this)
      have hl : imagePattern.length = 12 := rfl
      simp only [hl]
      rw [ih (start + k + 12) _ (by omega), hocc]
      simp

theorem findImageFilesLoop_fuel (t : List Char) (fuel n start : Nat)
    (acc : List (List Char)) (hfuel : t.length < start + fuel) :
    findImageFilesLoop t (fuel + n) start acc = findImageFilesLoop t fuel start acc := by
  induction fuel generalizing start acc with
  | zero =>
    have hdrop : t.drop start = [] := List.drop_eq_nil_of_le (by omega)
    cases n with
    | zero => rfl
    | succ n =>
      rw [Nat.zero_add]
      simp only [findImageFilesLoop, hdrop]
      rfl
  | succ fuel ih =>
    have e : fuel + 1 + n = (fuel + n) + 1 := by omega
    rw [e]
    simp only [findImageFilesLoop]
    cases hs : regexSearch imagePattern (t.drop start) with
    | none => rfl
    | some k =>
      have hl : imagePattern.length = 12 := rfl
      simp only [hl]
      exact ih _ _ (by omega)

/-! ## C1: the directory-listing scan -/

/-- C1 (as stated, refuted): in the text `GOPR0001.JPGOPR0002.JPG` the pattern
occurs at positions 0 and 11, the second occurrence starting on the last `G`
of the first; `findImageFiles` resumes after the first match and returns the
first name only, not the substring at every occurrence. -/
theorem findImageFiles_overlap_counterexample :
    occurrences "GOPR0001.JPGOPR0002.JPG".toList = [0, 11] ∧
    findImageFiles "GOPR0001.JPGOPR0002.JPG".toList [] = ["GOPR0001.JPG".toList] ∧
    findImageFiles "GOPR0001.JPGOPR0002.JPG".toList [] ≠
      (occurrences "GOPR0001.JPGOPR0002.JPG".toList).map
        (fun p => substr "GOPR0001.JPGOPR0002.JPG".toList p 12) := by
  decide

/-- C1 (amended): for every text in which no occurrence of the pattern starts
on the last character of another occurrence, `findImageFiles` called with an
empty output list returns exactly the 12-character substrings at the positions
where the pattern occurs, in ascending position order; the near-matches
`GOPR001.JPG` and `GOPR00001.JPG` yield no entry. -/
theorem findImageFiles_all_occurrences (t : List Char)
    (hno : ∀ p, p < t.length → occursAt t p = true → occursAt t (p + 11) = false) :
    findImageFiles t [] = (occurrences t).map (fun p => substr t p 12) ∧
    findImageFiles "GOPR001.JPG".toList [] = [] ∧
    findImageFiles "GOPR00001.JPG".toList [] = [] := by
  refine ⟨?_, by decide, by decide⟩
  unfold findImageFiles
  rw [findImageFilesLoop_eq t hno _ 0 [] (by omega), occurrencesFrom_zero]
  simp

/-- C1, an instance: a text with two names and other characters around them
yields exactly the two names, in order. -/
theorem findImageFiles_all_occurrences_witness :
    (∀ p, p < "<a>GOPR0001.JPG</a> <a>GOPR0002.JPG</a>".toList.length →
      occursAt "<a>GOPR0001.JPG</a> <a>GOPR0002.JPG</a>".toList p = true →
      occursAt "<a>GOPR0001.JPG</a> <a>GOPR0002.JPG</a>".toList (p + 11) = false) ∧
    findImageFiles "<a>GOPR0001.JPG</a> <a>GOPR0002.JPG</a>".toList []
      = (occurrences "<a>GOPR0001.JPG</a> <a>GOPR0002.JPG</a>".toList).map
          (fun p => substr "<a>GOPR0001.JPG</a> <a>GOPR0002.JPG</a>".toList p 12) ∧
    (occurrences "<a>GOPR0001.JPG</a> <a>GOPR0002.JPG</a>".toList).map
          (fun p => substr "<a>GOPR0001.JPG</a> <a>GOPR0002.JPG</a>".toList p 12)
      = ["GOPR0001.JPG".toList, "GOPR0002.JPG".toList] :=
  ⟨by decide,
   (findImageFiles_all_occurrences "<a>GOPR0001.JPG</a> <a>GOPR0002.JPG</a>".toList
      (by decide)).1,
   by decide⟩

/-! ## C2: one item per name -/

theorem curlRequestUrl_eq (net : Net) (log : List Event) (url buf : List Char)
    (timeout : Int) :
    GoProHero.curlRequestUrl net log url buf timeout
      = (true, buf ++ (net log url timeout).received, log ++ [Event.request url timeout]) := by
  unfold GoProHero.curlRequestUrl Response.received
  by_cases h : (net log url timeout).handle <;> simp [h]

theorem curlGetBytes_eq (net : Net) (log : List Event) (url : List Char)
    (image : List Nat) (timeout : Int) :
    GoProHero.curlGetBytes net log url image timeout
      = (true, image ++ ((net log url timeout).received).map charToByte,
          log ++ [Event.request url timeout]) := by
  simp [GoProHero.curlGetBytes, curlRequestUrl_eq]

theorem fetchLoop_eq (net : Net) (timeout : Int) (names : List (List Char))
    (images : List (List Nat)) (log : List Event) :
    GoProHero.fetchLoop net timeout names images log
      = (images ++ (List.range names.length).map (downloadedItem net timeout log names),
          log ++ names.map (downloadRequest timeout)) := by
  induction names generalizing images log with
  | nil => simp [GoProHero.fetchLoop]
  | cons name rest ih =>
    simp only [GoProHero.fetchLoop, curlGetBytes_eq, ih, List.length_cons,
      List.range_succ_eq_map, List.map_cons, List.map_map, List.append_assoc,
      List.singleton_append, List.nil_append]
    congr 1
    · congr 1
      congr 1
      · simp [downloadedItem]
      · apply List.map_congr_left
        intro i _
        simp [downloadedItem, downloadRequest]

theorem fetchLoopJson_all_names (net : Net) (timeout : Int) (names : List (List Char))
    (images : List (List Nat)) (log : List Event) :
    GoProHero.fetchLoopJson net timeout (names.map some) images log
      = { images := (GoProHero.fetchLoop net timeout names images log).1,
          log := (GoProHero.fetchLoop net timeout names images log).2,
          raised := false } := by
  induction names generalizing images log with
  | nil => rfl
  | cons name rest ih =>
    simp only [List.map_cons, GoProHero.fetchLoopJson, GoProHero.fetchLoop, ih]

theorem currentImages_html_eq (self : GoProHero) (hmode : self.imageListFrom_ = .HTML)
    (net : Net) (jsonCpp : List Char → JsonMedia)
    (log : List Event) (images : List (List Nat)) (timeout : Int) :
    self.currentImages net jsonCpp log images timeout
      = { images := images ++ (List.range (listedNames net log).length).map
            (downloadedItem net timeout (log ++ [Event.request mediaDir 2])
              (listedNames net log)),
          log := log ++ [Event.request mediaDir 2]
            ++ (listedNames net log).map (downloadRequest timeout)
            ++ (if (listedNames net log).isEmpty then
                  [Event.rosError
                    [.str "empty media list or media list page parsing error".toList]]
                else []),
          raised := false } := by
  unfold GoProHero.currentImages GoProHero.currentImagesVia
  rw [hmode]
  simp only [GoProHero.curlGetText, curlRequestUrl_eq, List.nil_append]
  by_cases hn : (findImageFiles (net log mediaDir 2).received []).isEmpty = true
  · have hl : listedNames net log = [] := by
      simpa [listedNames, List.isEmpty_iff] using hn
    simp [hn, hl]
  · have hl : (listedNames net log).isEmpty = false := by
      simpa [listedNames] using hn
    simp only [hn, hl, fetchLoop_eq]
    simp [listedNames]

/-- C2: in directory-listing mode, whatever the network answers,
`currentImages` returns normally and appends exactly one item per name found
in the listing, the `i`-th item being what the request to the media directory
plus the `i`-th name read; the requests issued are the one for the listing
followed by one per name, in the order of the names. -/
theorem currentImages_html_one_item_per_name (self : GoProHero)
    (hmode : self.imageListFrom_ = .HTML) (net : Net)
    (jsonCpp : List Char → JsonMedia)
    (log : List Event) (images : List (List Nat)) (timeout : Int) :
    (self.currentImages net jsonCpp log images timeout).images
      = images ++ (List.range (listedNames net log).length).map
          (downloadedItem net timeout (log ++ [Event.request mediaDir 2])
            (listedNames net log)) ∧
    (self.currentImages net jsonCpp log images timeout).images.length
      = images.length + (listedNames net log).length ∧
    (self.currentImages net jsonCpp log images timeout).log.filter Event.isRequest
      = log.filter Event.isRequest ++ Event.request mediaDir 2
          :: (listedNames net log).map (downloadRequest timeout) ∧
    (self.currentImages net jsonCpp log images timeout).raised = false := by
  rw [currentImages_html_eq self hmode]
  refine ⟨rfl, by simp, ?_, rfl⟩
  have hreq : ∀ l : List (List Char),
      (l.map (downloadRequest timeout)).filter Event.isRequest
        = l.map (downloadRequest timeout) := by
    intro l
    induction l with
    | nil => rfl
    | cons a l ih => simp [downloadRequest, Event.isRequest] at ih ⊢
  by_cases hn : (listedNames net log).isEmpty = true
  · simp [hn, List.filter_append, hreq, Event.isRequest]
  · simp [hn, List.filter_append, hreq, Event.isRequest]

/-- C2, an instance: the listing names two files, the first download times out
after two bytes and the second gets no handle; two items are appended all the
same, one per name and in order. -/
theorem currentImages_html_one_item_per_name_witness :
    (({ saveOnDevice_ := true, mode_ := .PHOTO, imageListFrom_ := .HTML } : GoProHero)
        |>.imageListFrom_) = .HTML ∧
    ((({ saveOnDevice_ := true, mode_ := .PHOTO, imageListFrom_ := .HTML } : GoProHero)
        |>.currentImages sampleNet (fun _ => .parseFails) [] [] 5).images
      = [] ++ (List.range (listedNames sampleNet []).length).map
          (downloadedItem sampleNet 5 ([] ++ [Event.request mediaDir 2])
            (listedNames sampleNet [])) ∧
    (({ saveOnDevice_ := true, mode_ := .PHOTO, imageListFrom_ := .HTML } : GoProHero)
        |>.currentImages sampleNet (fun _ => .parseFails) [] [] 5).images.length
      = ([] : List (List Nat)).length + (listedNames sampleNet []).length ∧
    (({ saveOnDevice_ := true, mode_ := .PHOTO, imageListFrom_ := .HTML } : GoProHero)
        |>.currentImages sampleNet (fun _ => .parseFails) [] [] 5).log.filter Event.isRequest
      = ([] : List Event).filter Event.isRequest ++ Event.request mediaDir 2
          :: (listedNames sampleNet []).map (downloadRequest 5) ∧
    (({ saveOnDevice_ := true, mode_ := .PHOTO, imageListFrom_ := .HTML } : GoProHero)
        |>.currentImages sampleNet (fun _ => .parseFails) [] [] 5).raised = false) :=
  ⟨rfl, currentImages_html_one_item_per_name _ rfl sampleNet (fun _ => .parseFails) [] [] 5⟩

/-! ## C3: mode changes -/

/-- C3: `setMode` records the new mode and dispatches exactly the mode-select
command followed by the mode's enable setting, for each of the three modes;
a freshly constructed object is in mode PHOTO, and a mode is always one of
VIDEO, PHOTO and MULTISHOT. -/
theorem setMode_dispatches_two (self : GoProHero) (log : List Event) :
    self.setMode log .VIDEO
      = ({ self with mode_ := .VIDEO },
          log ++ [Event.sendCommand "mode?p=0".toList, Event.sendSetting "10/1".toList]) ∧
    self.setMode log .PHOTO
      = ({ self with mode_ := .PHOTO },
          log ++ [Event.sendCommand "mode?p=1".toList, Event.sendSetting "21/1".toList]) ∧
    self.setMode log .MULTISHOT
      = ({ self with mode_ := .MULTISHOT },
          log ++ [Event.sendCommand "mode?p=2".toList, Event.sendSetting "34/1".toList]) ∧
    (∀ m, (self.setMode log m).1.mode_ = m) ∧
    (∀ env, (GoProHero.construct env).1.mode_ = .PHOTO) ∧
    (self.mode_ = .VIDEO ∨ self.mode_ = .PHOTO ∨ self.mode_ = .MULTISHOT) := by
  refine ⟨by simp [GoProHero.setMode], by simp [GoProHero.setMode],
    by simp [GoProHero.setMode], ?_, ?_, ?_⟩
  · intro m
    cases m <;> rfl
  · intro env
    unfold GoProHero.construct
    cases env with
    | none => rfl
    | some s => simp only; split_ifs <;> rfl
  · cases self.mode_ <;> simp

/-! ## C4: setting assignments -/

theorem cameraSettingsCB_eq (log : List Event) (settings : List Setting) :
    GoProHeroNode.cameraSettingsCB log settings
      = log ++ settings.map (fun s => GoProHeroNode.settingEffect s.name s.id) := by
  induction settings generalizing log with
  | nil => simp [GoProHeroNode.cameraSettingsCB]
  | cons s rest ih =>
    rw [GoProHeroNode.cameraSettingsCB, ih, GoProHeroNode.applySetting]
    simp

theorem settingEffect_known (name : List Char) (op : Op) (val : Int)
    (h : (name, op) ∈ settingTable) :
    GoProHeroNode.settingEffect name val
      = Event.call op (if op = .videoTagMoment then .noArg else .int val) := by
  simp only [settingTable, List.mem_cons, Prod.mk.injEq, List.mem_singleton,
    List.not_mem_nil, or_false] at h
  rcases h with h | h | h | h | h | h | h | h | h | h | h | h | h | h | h | h | h | h | h
    | h | h | h | h | h | h | h | h | h | h | h <;>
  · obtain ⟨rfl, rfl⟩ := h
    rfl

theorem settingEffect_unknown (s : Setting) (h : s.name ∉ settingTable.map Prod.fst) :
    GoProHeroNode.settingEffect s.name s.id = unrecognizedReport s := by
  have key : ∀ n, n ∈ settingTable.map Prod.fst → ¬ (n = s.name) := by
    intro n hn he
    exact h (he ▸ hn)
  unfold GoProHeroNode.settingEffect
  rw [if_neg (key "shutter".toList (by decide))]
  rw [if_neg (key "orientation".toList (by decide))]
  rw [if_neg (key "ledBlink".toList (by decide))]
  rw [if_neg (key "beepVolume".toList (by decide))]
  rw [if_neg (key "lcdDisplay".toList (by decide))]
  rw [if_neg (key "onScreenDisplay".toList (by decide))]
  rw [if_neg (key "lcdBrightness".toList (by decide))]
  rw [if_neg (key "lcdLock".toList (by decide))]
  rw [if_neg (key "lcdSleepTimeout".toList (by decide))]
  rw [if_neg (key "autoOffTime".toList (by decide))]
  rw [if_neg (key "videoStreamBitRate".toList (by decide))]
  rw [if_neg (key "videoFrameRate".toList (by decide))]
  rw [if_neg (key "videoResolution".toList (by decide))]
  rw [if_neg (key "videoFrameRate".toList (by decide))]
  rw [if_neg (key "videoFOV".toList (by decide))]
  rw [if_neg (key "videoLowLight".toList (by decide))]
  rw [if_neg (key "videoLoopDuration".toList (by decide))]
  rw [if_neg (key "videoPhotoInterval".toList (by decide))]
  rw [if_neg (key "videoTagMoment".toList (by decide))]
  rw [if_neg (key "multiBurstRate".toList (by decide))]
  rw [if_neg (key "multiTimeLapseInterval".toList (by decide))]
  rw [if_neg (key "multiNightLapseInterval".toList (by decide))]
  rw [if_neg (key "whiteBalance".toList (by decide))]
  rw [if_neg (key "color".toList (by decide))]
  rw [if_neg (key "isoLimit".toList (by decide))]
  rw [if_neg (key "isoMin".toList (by decide))]
  rw [if_neg (key "sharpness".toList (by decide))]
  rw [if_neg (key "ev".toList (by decide))]
  rw [if_neg (key "exposure".toList (by decide))]
  rw [if_neg (key "spotMeter".toList (by decide))]
  rw [if_neg (key "photoResolution".toList (by decide))]
  rfl

theorem lookup_absent (l : List (List Char × Op)) (name : List Char)
    (h : name ∉ l.map Prod.fst) : l.lookup name = none := by
  induction l with
  | nil => rfl
  | cons p l ih =>
    obtain ⟨k, v⟩ := p
    simp only [List.map_cons, List.mem_cons, not_or] at h
    have hk : (name == k) = false := by simpa using h.1
    simp [List.lookup, hk, ih h.2]

theorem settingEffect_eq_tableEffect (s : Setting) :
    GoProHeroNode.settingEffect s.name s.id = tableEffect s := by
  by_cases h : s.name ∈ settingTable.map Prod.fst
  · obtain ⟨name, val⟩ := s
    simp only [settingTable, List.map_cons, List.map_nil, List.mem_cons,
      List.mem_singleton, List.not_mem_nil, or_false] at h
    rcases h with h | h | h | h | h | h | h | h | h | h | h | h | h | h | h | h | h | h | h
      | h | h | h | h | h | h | h | h | h | h | h <;>
    · subst h
      rfl
  · rw [settingEffect_unknown s h]
    unfold tableEffect
    rw [lookup_absent _ _ h]

/-- C4 (as stated, refuted): `videoTagMoment` is a name of the table, yet the
operation dispatched for it carries no value: the assignments
(`videoTagMoment`, 5) and (`videoTagMoment`, 7) dispatch the same call
without argument. -/
theorem cameraSettingsCB_videoTagMoment_counterexample :
    ("videoTagMoment".toList, Op.videoTagMoment) ∈ settingTable ∧
    GoProHeroNode.cameraSettingsCB [] [{ name := "videoTagMoment".toList, id := 5 }]
      = [Event.call .videoTagMoment .noArg] ∧
    GoProHeroNode.cameraSettingsCB [] [{ name := "videoTagMoment".toList, id := 5 }]
      ≠ [Event.call .videoTagMoment (.int 5)] ∧
    GoProHeroNode.cameraSettingsCB [] [{ name := "videoTagMoment".toList, id := 5 }]
      = GoProHeroNode.cameraSettingsCB [] [{ name := "videoTagMoment".toList, id := 7 }] := by
  decide

/-- C4 (amended): `cameraSettingsCB` handles every assignment of the batch
exactly once and in input order, doing for each what the table prescribes:
for a name of the table exactly one call of the method for that name, with
the given value (without argument for `videoTagMoment`), and no report; for
any other name no call and exactly one report; the assignments after an
unrecognized name are handled all the same. (`shutter`, 1) calls `shutter`
once and (`doesNotExist`, 5) yields one report and no call. -/
theorem cameraSettingsCB_each_once_in_order (log : List Event) (settings : List Setting) :
    GoProHeroNode.cameraSettingsCB log settings = log ++ settings.map tableEffect ∧
    GoProHeroNode.cameraSettingsCB [] [{ name := "shutter".toList, id := 1 }]
      = [Event.call .shutter (.int 1)] ∧
    GoProHeroNode.cameraSettingsCB [] [{ name := "doesNotExist".toList, id := 5 }]
      = [unrecognizedReport { name := "doesNotExist".toList, id := 5 }] := by
  refine ⟨?_, by decide, by decide⟩
  rw [cameraSettingsCB_eq]
  congr 1
  apply List.map_congr_left
  intro s _
  exact settingEffect_eq_tableEffect s

/-! ## C5: the wake payload -/

theorem six_le_length (l : List Nat) (h : 6 ≤ l.length) :
    ∃ r0 r1 r2 r3 r4 r5 rest, l = r0 :: r1 :: r2 :: r3 :: r4 :: r5 :: rest := by
  match l, h with
  | r0 :: r1 :: r2 :: r3 :: r4 :: r5 :: rest, _ => exact ⟨r0, r1, r2, r3, r4, r5, rest, rfl⟩

theorem memcpy_six (pre tail src : List Nat) (off : Nat) (hoff : off = pre.length)
    (htail : 6 ≤ tail.length) (hsrc : src.length = 6) :
    memcpy (pre ++ tail) off src 6 = pre ++ src ++ tail.drop 6 := by
  obtain ⟨r0, r1, r2, r3, r4, r5, rest, rfl⟩ := six_le_length tail htail
  obtain ⟨m0, m1, m2, m3, m4, m5, mrest, rfl⟩ := six_le_length src (by omega)
  have hm : mrest = [] := by simpa using hsrc
  subst hm
  subst hoff
  simp [memcpy, List.set_append]

theorem fill_header (buf : List Nat) (h : 6 ≤ buf.length) :
    (List.range' 0 6).foldl (fun b i => b.set i 0xFF) buf
      = List.replicate 6 0xFF ++ buf.drop 6 := by
  obtain ⟨r0, r1, r2, r3, r4, r5, rest, rfl⟩ := six_le_length buf h
  rfl

theorem fill_copies (mac hdr l : List Nat) (hmac : mac.length = 6) (hhdr : hdr.length = 6)
    (k : Nat) (hk : 6 * k ≤ l.length) :
    (List.range' 1 k).foldl (fun b i => memcpy b (i * 6) mac 6) (hdr ++ l)
      = hdr ++ (List.replicate k mac).flatten ++ l.drop (6 * k) := by
  induction k with
  | zero => simp
  | succ k ih =>
    have hsplit : List.range' 1 (k + 1) = List.range' 1 k ++ [1 + k] := by
      rw [range'_split]
      rfl
    rw [hsplit, List.foldl_append, ih (by omega)]
    simp only [List.foldl_cons, List.foldl_nil]
    rw [memcpy_six (hdr ++ (List.replicate k mac).flatten) (l.drop (6 * k)) mac _
      (by simp [hhdr, hmac]; ring) (by simp; omega) hmac]
    have hrep : (List.replicate (k + 1) mac).flatten
        = (List.replicate k mac).flatten ++ mac := by
      rw [List.replicate_succ', List.flatten_append]
      simp
    have hdrop : List.drop 6 (List.drop (6 * k) l) = List.drop (6 * (k + 1)) l := by
      rw [List.drop_drop]
      congr 1
    rw [hrep, hdrop]
    simp

theorem magicPacket_eq (mac : CArray 6) (buf : CArray 102) :
    GoProHero.magicPacket mac buf
      = List.replicate 6 0xFF ++ (List.replicate 16 mac.val).flatten := by
  unfold GoProHero.magicPacket
  simp only
  rw [fill_header buf.val (by rw [buf.property]; omega),
    fill_copies mac.val _ _ mac.property (by simp) 16
      (by simp [buf.property])]
  have : List.drop (6 * 16) (List.drop 6 buf.val) = [] := by
    simp [buf.property]
  rw [this]
  simp

/-- C5: whatever the six bytes of the address and whatever the array held
before, the payload `sendMagicPacket` sends is 102 bytes long, its bytes 0 to 5
are `0xFF` and its byte `6 + 6 * k + j` is byte `j` of the address, for
`k < 16` and `j < 6`: six bytes `0xFF` followed by sixteen copies of the
address; for `AA:BB:CC:DD:EE:FF` it is six `0xFF` and sixteen times
`AA BB CC DD EE FF`. -/
theorem sendMagicPacket_payload (log : List Event) (mac : CArray 6) (buf : CArray 102) :
    GoProHero.sendMagicPacket log mac buf
      = log ++ [Event.sendTo "10.5.5.9".toList 9 (GoProHero.magicPacket mac buf)] ∧
    (GoProHero.magicPacket mac buf).length = 102 ∧
    (∀ i : Fin 6, (GoProHero.magicPacket mac buf)[i.val]? = some 0xFF) ∧
    (∀ (k : Fin 16) (j : Fin 6),
      (GoProHero.magicPacket mac buf)[6 + 6 * k.val + j.val]? = mac.val[j.val]?) ∧
    GoProHero.magicPacket mac buf
      = List.replicate 6 0xFF ++ (List.replicate 16 mac.val).flatten ∧
    GoProHero.magicPacket ⟨[0xAA, 0xBB, 0xCC, 0xDD, 0xEE, 0xFF], rfl⟩ buf
      = List.replicate 6 0xFF
        ++ (List.replicate 16 [0xAA, 0xBB, 0xCC, 0xDD, 0xEE, 0xFF]).flatten := by
  refine ⟨rfl, ?_, ?_, ?_, magicPacket_eq mac buf, magicPacket_eq _ buf⟩
  · rw [magicPacket_eq]
    simp [mac.property]
  · rintro ⟨i, hi⟩
    rw [magicPacket_eq, List.getElem?_append_left (by simpa using hi)]
    interval_cases i <;> rfl
  · rintro ⟨k, hk⟩ ⟨j, hj⟩
    rw [magicPacket_eq]
    obtain ⟨m, hm⟩ := mac
    obtain ⟨m0, m1, m2, m3, m4, m5, mrest, rfl⟩ := six_le_length m (by omega)
    have hnil : mrest = [] := by simpa using hm
    subst hnil
    interval_cases k <;> interval_cases j <;> rfl

/-! ## C6: the listing strategy chosen at construction -/

theorem toUpper_eq_iff (c U : Char) (hU : U ∈ ['J', 'S', 'O', 'N', 'H', 'T', 'M', 'L']) :
    c.toUpper = U ↔ (c = U ∨ c = U.toLower) := by
  by_cases hr : 97 ≤ c.toNat ∧ c.toNat ≤ 122
  · obtain ⟨n, hn⟩ : ∃ n, c.toNat = n := ⟨_, rfl⟩
    have hc : c = Char.ofNat n := by rw [← hn, Char.ofNat_toNat]
    rw [hn] at hr
    obtain ⟨h1, h2⟩ := hr
    subst hc
    simp only [List.mem_cons, List.mem_singleton, List.not_mem_nil, or_false] at hU
    rcases hU with rfl | rfl | rfl | rfl | rfl | rfl | rfl | rfl <;>
      interval_cases n <;> decide
  · have ht : c.toUpper = c := by
      unfold Char.toUpper
      simp only [ge_iff_le]
      rw [if_neg hr]
    rw [ht]
    constructor
    · intro h
      exact Or.inl h
    · rintro (h | h)
      · exact h
      · exfalso
        apply hr
        subst h
        simp only [List.mem_cons, List.mem_singleton, List.not_mem_nil, or_false] at hU
        rcases hU with rfl | rfl | rfl | rfl | rfl | rfl | rfl | rfl <;> decide

theorem iequals_JSON (s : List Char) : iequals "JSON".toList s = true ↔ spellsJSON s := by
  show iequals ['J', 'S', 'O', 'N'] s = true ↔ spellsJSON s
  unfold spellsJSON
  have hJ := fun c => toUpper_eq_iff c 'J' (by decide)
  have hS := fun c => toUpper_eq_iff c 'S' (by decide)
  have hO := fun c => toUpper_eq_iff c 'O' (by decide)
  have hN := fun c => toUpper_eq_iff c 'N' (by decide)
  have eJ : 'J'.toUpper = 'J' := by decide
  have eS : 'S'.toUpper = 'S' := by decide
  have eO : 'O'.toUpper = 'O' := by decide
  have eN : 'N'.toUpper = 'N' := by decide
  have lJ : 'J'.toLower = 'j' := by decide
  have lS : 'S'.toLower = 's' := by decide
  have lO : 'O'.toLower = 'o' := by decide
  have lN : 'N'.toLower = 'n' := by decide
  rw [lJ] at hJ
  rw [lS] at hS
  rw [lO] at hO
  rw [lN] at hN
  match s with
  | [] => simp [iequals]
  | [_] => simp [iequals]
  | [_, _] => simp [iequals]
  | [_, _, _] => simp [iequals]
  | _ :: _ :: _ :: _ :: _ :: _ => simp [iequals]
  | [c0, c1, c2, c3] =>
    simp only [iequals, eJ, eS, eO, eN, Bool.and_true, Bool.and_eq_true, beq_iff_eq]
    constructor
    · rintro ⟨h0, h1, h2, h3⟩
      exact ⟨c0, c1, c2, c3, rfl, (hJ c0).1 h0.symm, (hS c1).1 h1.symm, (hO c2).1 h2.symm,
        (hN c3).1 h3.symm⟩
    · rintro ⟨d0, d1, d2, d3, he, h0, h1, h2, h3⟩
      simp only [List.cons.injEq, and_true] at he
      obtain ⟨rfl, rfl, rfl, rfl⟩ := he
      exact ⟨((hJ c0).2 h0).symm, ((hS c1).2 h1).symm, ((hO c2).2 h2).symm,
        ((hN c3).2 h3).symm⟩

theorem iequals_HTML (s : List Char) : iequals "HTML".toList s = true ↔ spellsHTML s := by
  show iequals ['H', 'T', 'M', 'L'] s = true ↔ spellsHTML s
  unfold spellsHTML
  have hH := fun c => toUpper_eq_iff c 'H' (by decide)
  have hT := fun c => toUpper_eq_iff c 'T' (by decide)
  have hM := fun c => toUpper_eq_iff c 'M' (by decide)
  have hL := fun c => toUpper_eq_iff c 'L' (by decide)
  have eH : 'H'.toUpper = 'H' := by decide
  have eT : 'T'.toUpper = 'T' := by decide
  have eM : 'M'.toUpper = 'M' := by decide
  have eL : 'L'.toUpper = 'L' := by decide
  have lH : 'H'.toLower = 'h' := by decide
  have lT : 'T'.toLower = 't' := by decide
  have lM : 'M'.toLower = 'm' := by decide
  have lL : 'L'.toLower = 'l' := by decide
  rw [lH] at hH
  rw [lT] at hT
  rw [lM] at hM
  rw [lL] at hL
  match s with
  | [] => simp [iequals]
  | [_] => simp [iequals]
  | [_, _] => simp [iequals]
  | [_, _, _] => simp [iequals]
  | _ :: _ :: _ :: _ :: _ :: _ => simp [iequals]
  | [c0, c1, c2, c3] =>
    simp only [iequals, eH, eT, eM, eL, Bool.and_true, Bool.and_eq_true, beq_iff_eq]
    constructor
    · rintro ⟨h0, h1, h2, h3⟩
      exact ⟨c0, c1, c2, c3, rfl, (hH c0).1 h0.symm, (hT c1).1 h1.symm, (hM c2).1 h2.symm,
        (hL c3).1 h3.symm⟩
    · rintro ⟨d0, d1, d2, d3, he, h0, h1, h2, h3⟩
      simp only [List.cons.injEq, and_true] at he
      obtain ⟨rfl, rfl, rfl, rfl⟩ := he
      exact ⟨((hH c0).2 h0).symm, ((hT c1).2 h1).symm, ((hM c2).2 h2).symm,
        ((hL c3).2 h3).symm⟩

theorem construct_JSON_iff (env : Option (List Char)) :
    (GoProHero.construct env).1.imageListFrom_ = .JSON
      ↔ ∃ s, env = some s ∧ spellsJSON s := by
  cases env with
  | none => simp [GoProHero.construct]
  | some s =>
    unfold GoProHero.construct
    simp only [Option.some.injEq, exists_eq_left']
    by_cases hj : iequals "JSON".toList s = true
    · rw [if_pos hj]
      simp [(iequals_JSON s).1 hj]
    · have hs : ¬ spellsJSON s := fun h => hj ((iequals_JSON s).2 h)
      rw [if_neg hj]
      by_cases hh : iequals "HTML".toList s = true
      · rw [if_pos hh]
        simp [hs]
      · rw [if_neg hh]
        simp [hs]

/-- C6: the strategy chosen at construction is JSON exactly when the variable
is set to a spelling of `JSON` in upper-case or lower-case letters; it is HTML
in every other case: when the variable spells `HTML`, when it holds any other
string, and when it is not set. -/
theorem construct_listing_strategy (env : Option (List Char)) :
    ((GoProHero.construct env).1.imageListFrom_ = .JSON
      ↔ ∃ s, env = some s ∧ spellsJSON s) ∧
    ((GoProHero.construct env).1.imageListFrom_ = .HTML
      ↔ ¬ ∃ s, env = some s ∧ spellsJSON s) ∧
    (∀ s, spellsHTML s → (GoProHero.construct (some s)).1.imageListFrom_ = .HTML) ∧
    (GoProHero.construct none).1.imageListFrom_ = .HTML := by
  have hiff := construct_JSON_iff
  have hhtml : ∀ e, (GoProHero.construct e).1.imageListFrom_ = .HTML
      ↔ ¬ ∃ s, e = some s ∧ spellsJSON s := by
    intro e
    rw [← hiff e]
    cases (GoProHero.construct e).1.imageListFrom_ <;> simp
  refine ⟨hiff env, hhtml env, ?_, rfl⟩
  intro s hs
  rw [hhtml]
  rintro ⟨s', he, hj⟩
  simp only [Option.some.injEq] at he
  subst he
  obtain ⟨a0, a1, a2, a3, rfl, ha, -⟩ := hs
  obtain ⟨b0, b1, b2, b3, hb, hb0, -⟩ := hj
  simp only [List.cons.injEq, and_true] at hb
  obtain ⟨rfl, -⟩ := hb
  rcases ha with rfl | rfl <;> rcases hb0 with h | h <;> exact absurd h (by decide)

/-! ## C7, C8, C9: the result of a request -/

/-- C7 (the code at the failing inputs): `curlRequestUrl`, and `curlGetText`
with it, returns `true` whatever happened: when no handle could be had, and
when the transfer timed out after part of the body had arrived. -/
theorem curlRequestUrl_true_on_failure :
    (noHandleNet [] mediaDir 2).succeeded = false ∧
    GoProHero.curlRequestUrl noHandleNet [] mediaDir [] 2
      = (true, [], [Event.request mediaDir 2]) ∧
    (timedOutNet [] mediaDir 2).succeeded = false ∧
    GoProHero.curlGetText timedOutNet [] mediaDir [] 2
      = (true, "<a>GOPR0001.JPG".toList, [Event.request mediaDir 2]) ∧
    (∀ (net : Net) (log : List Event) (url buf : List Char) (timeout : Int),
      (GoProHero.curlRequestUrl net log url buf timeout).1 = true ∧
      (GoProHero.curlGetText net log url buf timeout).1 = true) := by
  refine ⟨by decide, by decide, by decide, by decide, ?_⟩
  intro net log url buf timeout
  simp [GoProHero.curlGetText, curlRequestUrl_eq]

/-- C9 (the code at the failing input): the download times out after two
bytes; `curlGetBytes` returns `true` and the two bytes are in the buffer, so
the item appended for the name is not empty. -/
theorem curlGetBytes_true_on_failure :
    (timedOutNet [] (mediaDir ++ "GOPR0001.JPG".toList) 5).succeeded = false ∧
    GoProHero.curlGetBytes timedOutNet [] (mediaDir ++ "GOPR0001.JPG".toList) [] 5
      = (true, [97, 98], [Event.request (mediaDir ++ "GOPR0001.JPG".toList) 5]) ∧
    (GoProHero.fetchLoop timedOutNet 5 ["GOPR0001.JPG".toList] [] []).1 = [[97, 98]] := by
  decide

/-! ## C10: the shutter service -/

theorem handleToggles_eq (self : GoProHeroNode) (log : List Event) (msgs : List Bool) :
    (self.handleToggles log msgs).2 = log ++ toggleTrace self.isStreaming_ msgs := by
  induction msgs generalizing self log with
  | nil => simp [GoProHeroNode.handleToggles, toggleTrace]
  | cons data rest ih =>
    obtain ⟨gp, started⟩ := self
    cases data <;> cases started <;>
      simp [GoProHeroNode.handleToggles, GoProHeroNode.toggleVideoStreamCB,
        GoProHero.setMode, ih, toggleTrace, videoModeCommands]

theorem toggleTrace_started (msgs : List Bool) :
    toggleTrace true msgs = (msgs.map laterToggle).flatten := by
  induction msgs with
  | nil => rfl
  | cons data rest ih =>
    cases data <;> simp [toggleTrace, laterToggle, ih]

theorem toggleTrace_false_prefix (started : Bool) (n : Nat) (rest : List Bool) :
    toggleTrace started (List.replicate n false ++ rest)
      = List.replicate n (Event.streamPause false) ++ toggleTrace started rest := by
  induction n with
  | zero => simp
  | succ n ih => simp [List.replicate_succ, toggleTrace, ih]

theorem toggleTrace_count_start (started : Bool) (msgs : List Bool) :
    (toggleTrace started msgs).count Event.streamStart
      = if !started && msgs.contains true then 1 else 0 := by
  induction msgs generalizing started with
  | nil => simp [toggleTrace]
  | cons data rest ih =>
    cases data <;> cases started <;>
      simp [toggleTrace, videoModeCommands, ih, List.count_cons, List.count_append]

theorem toggleTrace_pauses (started : Bool) (msgs : List Bool) :
    (toggleTrace started msgs).filterMap Event.pauseArg = msgs := by
  induction msgs generalizing started with
  | nil => simp [toggleTrace]
  | cons data rest ih =>
    cases data <;> cases started <;>
      simp [toggleTrace, videoModeCommands, ih, Event.pauseArg, List.filterMap_cons,
        List.filterMap_append]

/-- C11: a node starts with `isStreaming_` false. From that state, for every
sequence of messages, `start()` is called once if some message carries `true`
and never otherwise; the call happens while the first such message is
handled, after the mode change and before that message's `pause(true)`; a
later message with `true` calls nothing on the stream but `pause(true)`; and
every message calls `pause(data)` exactly once, in the order of the
messages. -/
theorem toggleVideoStreamCB_starts_once (env : Option (List Char)) (gp : GoProHero)
    (log : List Event) (msgs post : List Bool) (n : Nat) :
    (GoProHeroNode.construct env).1.isStreaming_ = false ∧
    ((GoProHeroNode.handleToggles { gp_ := gp, isStreaming_ := false } [] msgs).2.count
        Event.streamStart = if msgs.contains true then 1 else 0) ∧
    (GoProHeroNode.handleToggles { gp_ := gp, isStreaming_ := false } log
        (List.replicate n false ++ true :: post)).2
      = log ++ List.replicate n (Event.streamPause false) ++ videoModeCommands
          ++ [Event.streamStart, Event.streamPause true]
          ++ (post.map laterToggle).flatten ∧
    (GoProHeroNode.handleToggles { gp_ := gp, isStreaming_ := false } log
        (List.replicate n false)).2
      = log ++ List.replicate n (Event.streamPause false) ∧
    (∀ data, (laterToggle data).filter Event.isStreamCall = [Event.streamPause data]) ∧
    (GoProHeroNode.handleToggles { gp_ := gp, isStreaming_ := false } [] msgs).2.filterMap
        Event.pauseArg = msgs ∧
    (∀ (self : GoProHeroNode) (data : Bool),
      (self.toggleVideoStreamCB [] data).2.filterMap Event.pauseArg = [data]) := by
  refine ⟨rfl, ?_, ?_, ?_, ?_, ?_, ?_⟩
  · rw [handleToggles_eq, List.nil_append, toggleTrace_count_start]
    simp
  · rw [handleToggles_eq, toggleTrace_false_prefix]
    simp [toggleTrace, toggleTrace_started]
  · have h := toggleTrace_false_prefix false n []
    rw [List.append_nil] at h
    rw [handleToggles_eq, h]
    simp [toggleTrace]
  · intro data
    cases data <;> decide
  · rw [handleToggles_eq, List.nil_append, toggleTrace_pauses]
  · intro self data
    have h := handleToggles_eq self [] [data]
    have hp := toggleTrace_pauses self.isStreaming_ [data]
    simp only [GoProHeroNode.handleToggles, List.nil_append] at h
    rw [h, hp]

end gopro_hero
